import Mathlib

/-!
Shallow embedding of `backend/generate_data.py` (the synthetic inventory
time-series generator of StockShiftAI) and proofs about it.

Modelling conventions:
* Python `int` values become `ℤ` (or `ℕ` for counts), Python `float`
  arithmetic is modelled exactly over `ℚ` — every IEEE-754 double is a
  rational number, so quantifying over all rational outcomes of a float
  computation covers every behaviour of the float program.
* `datetime` values become epoch-day numbers (`ℤ`, days since 1970-01-01);
  adding `timedelta(days=1)` is `+ 1`.  The calendar month that
  `day.strftime("%Y-%m-%d")` writes and `compute_stats` parses back is
  computed by `civilMonth` (the standard civil-from-days algorithm).
* The seeded Mersenne-Twister source (`random.seed(42)`) is abstracted as an
  explicit state `RState`: a cursor into oracle streams, one rational stream
  for the uniform draws, one for the Gaussian draws, one natural stream for
  the integer draws.  Every draw advances the single shared cursor, in the
  exact call order of the source, so the whole run is a function of the
  initial state — theorems quantify over all states, covering every seed.
* The transcendental factors (`math.cos` in `seasonal_factor`, `math.exp` in
  `trend_factor`) return floats, i.e. rationals; their outcomes enter the
  simulation through a `FloatOracle` indexed by the exact arguments the
  source passes (the cosine depends only on `month − peak_month`, the
  exponential on `trend · day_index`).
-/

namespace StockShiftAI

/-- Python `int(x)` applied to a float: truncation toward zero. -/
def pyInt {α : Type} [LinearOrderedField α] [FloorRing α] (x : α) : ℤ :=
  if x < 0 then -⌊-x⌋ else ⌊x⌋

/-- Python `round(x)` applied to a float: round half to even. -/
def pyRound {α : Type} [LinearOrderedField α] [FloorRing α] (x : α) : ℤ :=
  let f := ⌊x⌋
  if x - f < 1/2 then f
  else if 1/2 < x - f then f + 1
  else if f % 2 = 0 then f else f + 1

/-- Python `round(x, k)`: round to the nearest multiple of `10⁻ᵏ`, ties to
even. -/
def roundTo {α : Type} [LinearOrderedField α] [FloorRing α] (k : ℕ) (x : α) : α :=
  (pyRound (x * (10 : α) ^ k) : α) / (10 : α) ^ k

/-- Month (1–12) of an epoch-day number, by the standard civil-from-days
algorithm; this is the month the source writes with `strftime("%Y-%m-%d")`
and parses back with `int(d["date"].split("-")[1])`. -/
def civilMonth (z : ℤ) : ℤ :=
  let z2 := z + 719468
  let era := (if 0 ≤ z2 then z2 else z2 - 146096) / 146097
  let doe := z2 - era * 146097
  let yoe := (doe - doe / 1460 + doe / 36524 - doe / 146096) / 365
  let doy := doe - (365 * yoe + yoe / 4 - yoe / 100)
  let mp := (5 * doy + 2) / 153
  if mp < 10 then mp + 3 else mp - 9

/-- `datetime.weekday()`: Monday = 0; 1970-01-01 (epoch day 0) was a
Thursday (= 3). -/
def weekdayOf (day : ℤ) : ℤ := (day + 3) % 7

/-- One element of `daily_data` (`generate_data.py`, lines 251–257). -/
structure DailyRecord where
  date : ℤ
  qty_sold : ℤ
  qty_received : ℤ
  stock_level : ℤ
  is_anomaly : Bool
  deriving DecidableEq, Inhabited, Repr

/-- The per-SKU dictionary returned by `generate_sku_data`
(lines 265–274). -/
structure SkuData where
  sku : String
  name : String
  category : String
  location : String
  unit_cost : ℚ
  sell_price : ℚ
  lead_time_days : ℤ
  daily_data : List DailyRecord
  deriving Inhabited

/-- The statistics dictionary returned by `compute_stats` (lines 338–350).
`seasonal_factors` lists the values for months 1–12 in order (the source
keys them by `str(m)`). -/
structure SkuStats where
  avg_daily_demand_7d : ℚ
  avg_daily_demand_30d : ℚ
  avg_daily_demand_90d : ℚ
  std_deviation_30d : ℝ
  trend_slope_90d : ℚ
  seasonal_factors : List ℚ
  current_stock : ℤ
  days_until_stockout : ℤ
  recent_anomaly_count : ℕ
  yoy_change_pct : ℚ
  lead_time_days : ℤ

/-- `compute_stats` (`generate_data.py`, lines 277–350), embedded line by
line.  Python's trailing slices `daily[-n:]` become
`drop (length − n)`, and `daily[a:b]` (with `0 ≤ a ≤ b`) becomes
`(drop a).take (b − a)`. -/
noncomputable def compute_stats (sku_data : SkuData) : SkuStats :=
  let daily := sku_data.daily_data
  let last_30 := daily.drop (daily.length - 30)
  let last_7 := daily.drop (daily.length - 7)
  let last_90 := daily.drop (daily.length - 90)
  let sold_30 := last_30.map (fun d => (d.qty_sold : ℚ))
  let sold_7 := last_7.map (fun d => (d.qty_sold : ℚ))
  let sold_90 := last_90.map (fun d => (d.qty_sold : ℚ))
  let avg_30 : ℚ := if sold_30.isEmpty then 0 else sold_30.sum / sold_30.length
  let avg_7 : ℚ := if sold_7.isEmpty then 0 else sold_7.sum / sold_7.length
  let avg_90 : ℚ := if sold_90.isEmpty then 0 else sold_90.sum / sold_90.length
  let variance : ℚ :=
    if sold_30.isEmpty then 0
    else ((sold_30.map (fun x => (x - avg_30) ^ 2)).sum) / sold_30.length
  let std_dev : ℝ := Real.sqrt (variance : ℝ)
  let n := sold_90.length
  let slope : ℚ :=
    if 1 < n then
      let x_mean : ℚ := ((n : ℚ) - 1) / 2
      let y_mean := avg_90
      let numerator :=
        ((List.range n).map (fun (i : ℕ) => ((i : ℚ) - x_mean) * (sold_90.getD i 0 - y_mean))).sum
      let denominator := ((List.range n).map (fun (i : ℕ) => ((i : ℚ) - x_mean) ^ 2)).sum
      if denominator ≠ 0 then numerator / denominator else 0
    else 0
  let overall_avg : ℚ :=
    if daily.isEmpty then 1 else (daily.map (fun d => (d.qty_sold : ℚ))).sum / daily.length
  let seasonal_factors : List ℚ :=
    (List.range 12).map (fun (j : ℕ) =>
      let m : ℤ := (j : ℤ) + 1
      let monthly := daily.filter (fun d => civilMonth d.date = m)
      let m_avg : ℚ :=
        if monthly.isEmpty then overall_avg
        else (monthly.map (fun d => (d.qty_sold : ℚ))).sum / monthly.length
      if overall_avg ≠ 0 then roundTo 3 (m_avg / overall_avg) else 1)
  let recent_anomalies := (last_30.filter (fun d => d.is_anomaly)).length
  let current_stock : ℤ :=
    match daily.getLast? with
    | some d => d.stock_level
    | none => 0
  let days_until_stockout : ℤ :=
    if 0 < avg_7 then pyInt ((current_stock : ℚ) / avg_7) else 999
  let today_idx : ℤ := (daily.length : ℤ) - 1
  let ly_start : ℤ := max 0 (today_idx - 365 - 30)
  let ly_end : ℤ := max 0 (today_idx - 365)
  let ly_avg : ℚ :=
    if ly_start < ly_end then
      let ly_slice := (daily.drop ly_start.toNat).take (ly_end - ly_start).toNat
      if ly_slice.isEmpty then 0
      else (ly_slice.map (fun d => (d.qty_sold : ℚ))).sum / ly_slice.length
    else avg_30
  let yoy_change : ℚ := if 0 < ly_avg then (avg_30 - ly_avg) / ly_avg * 100 else 0
  { avg_daily_demand_7d := roundTo 2 avg_7
    avg_daily_demand_30d := roundTo 2 avg_30
    avg_daily_demand_90d := roundTo 2 avg_90
    std_deviation_30d := roundTo 2 std_dev
    trend_slope_90d := roundTo 4 slope
    seasonal_factors := seasonal_factors
    current_stock := current_stock
    days_until_stockout := days_until_stockout
    recent_anomaly_count := recent_anomalies
    yoy_change_pct := roundTo 1 yoy_change
    lead_time_days := sku_data.lead_time_days }

/-- Abstract state of the single seeded pseudo-random source
(`random.seed(42)`, line 20).  `pos` is the cursor of the next draw; `uf`
holds the outcomes of `random.random()`-style uniform draws (in `[0,1)` for
a genuine source), `gf` the outcomes of `random.gauss` draws (unbounded),
`nf` the entropy of integer draws (`random.randint`, `random.sample`).
All draws advance the one shared cursor in call order. -/
structure RState where
  uf : ℕ → ℚ
  gf : ℕ → ℚ
  nf : ℕ → ℕ
  pos : ℕ

/-- A random source is well formed when its uniform outcomes lie in `[0,1)`,
as `random.random()` guarantees. -/
def UnitRange (s : RState) : Prop := ∀ k, 0 ≤ s.uf k ∧ s.uf k < 1

/-- Advance the cursor past one draw. -/
def bump (s : RState) : RState := { s with pos := s.pos + 1 }

/-- `random.random()`: one uniform draw in `[0,1)`. -/
def draw_random (s : RState) : ℚ × RState := (s.uf s.pos, bump s)

/-- `random.uniform(a, b)`: `a + (b − a) · random()`. -/
def draw_uniform (a b : ℚ) (s : RState) : ℚ × RState :=
  (a + (b - a) * s.uf s.pos, bump s)

/-- `random.gauss(mu, sigma)`: outcome `mu + sigma · N` for a normal
deviate `N` supplied by the source. -/
def draw_gauss (mu sigma : ℚ) (s : RState) : ℚ × RState :=
  (mu + sigma * s.gf s.pos, bump s)

/-- `random.randint(a, b)`: a uniform integer in `[a, b]` (both ends
included). -/
def draw_randint (a b : ℕ) (s : RState) : ℕ × RState :=
  (a + s.nf s.pos % (b + 1 - a), bump s)

/-- Sampling loop of `random.sample`: pick one remaining element of the
population per draw, without replacement. -/
def sampleAux : ℕ → List ℕ → RState → List ℕ × RState
  | 0, _, s => ([], s)
  | cnt + 1, pop, s =>
      let i := s.nf s.pos % pop.length
      let x := pop.getD i 0
      let (rest, s2) := sampleAux cnt (pop.eraseIdx i) (bump s)
      (x :: rest, s2)

/-- `random.sample(pop, cnt)`: `cnt` distinct elements of `pop`; raises
`ValueError` when `cnt` exceeds the population size. -/
def pySample (pop : List ℕ) (cnt : ℕ) (s : RState) : Except String (List ℕ × RState) :=
  if cnt ≤ pop.length then Except.ok (sampleAux cnt pop s)
  else Except.error "Sample larger than population or is negative"

/-- Outcomes of the transcendental float computations.  `cosv j` is the
float value of `math.cos(j · 2π/12)` — `seasonal_factor` (line 189) only
ever passes multiples of `2π/12`, with `j = day.month − peak_month` —
and `expv x` is the float value of `math.exp(x)`. -/
structure FloatOracle where
  cosv : ℤ → ℚ
  expv : ℚ → ℚ

/-- A float oracle is well formed when its exponential outcomes are
nonnegative, as float `math.exp` guarantees. -/
def ExpNonneg (fo : FloatOracle) : Prop := ∀ x, 0 ≤ fo.expv x

/-- `seasonal_factor` (lines 187–190), exactly as the source computes it
over the reals: `1 + amplitude · cos((day.month − peak_month) · 2π/12)`.
The first argument is `day.month`. -/
noncomputable def seasonal_factor (month peak_month : ℤ) (amplitude : ℝ) : ℝ :=
  1 + amplitude * Real.cos (((month - peak_month : ℤ) : ℝ) * (2 * Real.pi / 12))

/-- Float-outcome form of `seasonal_factor` used inside the simulation:
the cosine value comes from the oracle. -/
def seasonal_factor_val (fo : FloatOracle) (month peak_month : ℤ) (amplitude : ℚ) : ℚ :=
  1 + amplitude * fo.cosv (month - peak_month)

/-- `weekday_factor` (lines 193–198): Mon–Fri get `1.0 + 0.1·random()`,
weekends `0.3 + 0.2·random()`; either branch consumes exactly one
`random.random()` draw. -/
def weekday_factor (day : ℤ) (s : RState) : ℚ × RState :=
  ((if weekdayOf day < 5 then 1 + 1/10 * (draw_random s).1
    else 3/10 + 2/10 * (draw_random s).1), (draw_random s).2)

/-- `trend_factor` (lines 201–203): float outcome of
`math.exp(trend · day_index)`, via the oracle. -/
def trend_factor_val (fo : FloatOracle) (day_index : ℕ) (trend : ℚ) : ℚ :=
  fo.expv (trend * day_index)

/-- The product profile dictionaries of the `SKUS` table
(lines 24–181). -/
structure Profile where
  sku : String
  name : String
  category : String
  location : String
  unit_cost : ℚ
  sell_price : ℚ
  lead_time_days : ℤ
  base_daily_demand : ℤ
  trend : ℚ
  seasonal_peak_month : ℤ
  seasonal_amplitude : ℚ
  deriving Inhabited

/-- The update one anomaly day receives (lines 216–219):
`qty_sold = int(qty_sold * spike_multiplier)` and the flag is set. -/
def spike (m : ℚ) (r : DailyRecord) : DailyRecord :=
  { r with qty_sold := pyInt ((r.qty_sold : ℚ) * m), is_anomaly := true }

/-- In-place update `l[i] = f(l[i])`; out-of-range indices leave the list
unchanged. -/
def updAt (l : List DailyRecord) (i : ℕ) (f : DailyRecord → DailyRecord) : List DailyRecord :=
  match l.get? i with
  | some r => l.set i (f r)
  | none => l

/-- The inner loop of `inject_anomalies` (lines 214–219): each of the
`duration` days of the window, when still inside the list, is spiked. -/
def applySpike (l : List DailyRecord) (idx duration : ℕ) (m : ℚ) : List DailyRecord :=
  (List.range duration).foldl
    (fun acc d => if idx + d < acc.length then updAt acc (idx + d) (spike m) else acc) l

/-- The outer loop of `inject_anomalies` (lines 210–219): per sampled
index, draw the multiplier from `uniform(2.5, 5.0)` and the duration from
`randint(1, 3)`, then spike the window. -/
def applySpikes : List ℕ → List DailyRecord → RState → List DailyRecord × RState
  | [], l, s => (l, s)
  | idx :: rest, l, s =>
      let (mult, s1) := draw_uniform (5/2) 5 s
      let (dur, s2) := draw_randint 1 3 s1
      applySpikes rest (applySpike l idx dur mult) s2

/-- `inject_anomalies` (lines 206–219): `n_anomalies = randint(8, 15)`
start positions sampled from `range(30, len(daily_data) - 5)`
(i.e. `List.range' 30 (len − 35)`), then the spike loop.  `random.sample`
raising `ValueError` becomes the `Except.error` branch. -/
def inject_anomalies (daily_data : List DailyRecord) (s : RState) :
    Except String (List DailyRecord × RState) :=
  let (n_anomalies, s1) := draw_randint 8 15 s
  match pySample (List.range' 30 (daily_data.length - 35)) n_anomalies s1 with
  | Except.error e => Except.error e
  | Except.ok (indices, s2) => Except.ok (applySpikes indices daily_data s2)

/-- The daily `while day <= END_DATE` loop of `generate_sku_data`
(lines 229–260), with `fuel` remaining days.  Per day: compute the three
factors, the Gaussian noise and `qty_sold = max(0, round(raw + noise))`;
restock `int(base · uniform(14, 28) · tf)` when
`stock < base · lead_time_days · 1.2`; update the stock and clamp
`qty_sold` so the stock never goes negative; emit the record and advance
the date and day index. -/
def genLoop (fo : FloatOracle) (p : Profile) :
    ℕ → ℤ → ℕ → ℤ → RState → List DailyRecord × RState
  | 0, _, _, _, s => ([], s)
  | fuel + 1, day, day_index, stock, s =>
      let sf := seasonal_factor_val fo (civilMonth day) p.seasonal_peak_month p.seasonal_amplitude
      let wfr := weekday_factor day s
      let wf := wfr.1
      let tf := trend_factor_val fo day_index p.trend
      let base : ℚ := (p.base_daily_demand : ℚ)
      let raw_demand := base * sf * wf * tf
      let noiser := draw_gauss 0 (base * (15/100)) wfr.2
      let noise := noiser.1
      let qty_sold : ℤ := max 0 (pyRound (raw_demand + noise))
      let recv : ℤ × RState :=
        if (stock : ℚ) < base * (p.lead_time_days : ℚ) * (12/10) then
          (pyInt (base * (draw_uniform 14 28 noiser.2).1 * tf), (draw_uniform 14 28 noiser.2).2)
        else (0, noiser.2)
      let qty_received := recv.1
      let stock1 := stock + qty_received - qty_sold
      let qs2 : ℤ := if stock1 < 0 then qty_sold + stock1 else qty_sold
      let stock2 : ℤ := if stock1 < 0 then 0 else stock1
      let r : DailyRecord :=
        { date := day, qty_sold := qs2, qty_received := qty_received,
          stock_level := stock2, is_anomaly := false }
      let rest := genLoop fo p fuel (day + 1) (day_index + 1) stock2 recv.2
      (r :: rest.1, rest.2)

/-- `generate_sku_data` (lines 222–274): run the daily loop over the whole
date range (`num_days` days starting at `start_day`), starting from
`stock = int(base_daily_demand * 30)`, then inject anomalies, and return
the per-SKU dictionary. -/
def generate_sku_data (fo : FloatOracle) (start_day : ℤ) (num_days : ℕ)
    (p : Profile) (s : RState) : Except String (SkuData × RState) :=
  let stock0 : ℤ := p.base_daily_demand * 30
  let run := genLoop fo p num_days start_day 0 stock0 s
  match inject_anomalies run.1 run.2 with
  | Except.error e => Except.error e
  | Except.ok (records, s2) =>
      Except.ok
        ({ sku := p.sku, name := p.name, category := p.category,
           location := p.location, unit_cost := p.unit_cost,
           sell_price := p.sell_price, lead_time_days := p.lead_time_days,
           daily_data := records }, s2)

/-- `START_DATE = datetime(2023, 1, 1)` (line 183) as an epoch day. -/
def START_DATE : ℤ := 19358

/-- `END_DATE = datetime(2026, 2, 27)` (line 184) as an epoch day. -/
def END_DATE : ℤ := 20511

/-- Number of iterations of the `while day <= END_DATE` loop over the
configured range (both ends inclusive). -/
def NUM_DAYS : ℕ := 1154

/-- One entry of the `all_data` dictionary `main` assembles
(lines 362–374). -/
structure DatasetEntry where
  metadata : Profile
  stats : SkuStats
  daily_data : List DailyRecord

/-- The `for sku_info in SKUS` loop of `main` (lines 357–374): generate
each SKU in order, threading the one random source, compute its stats, and
collect the entries; any generation error aborts the whole run before the
single `json.dump` write (line 376), so no partial dataset is ever
written. -/
noncomputable def assembleLoop (fo : FloatOracle) (start_day : ℤ) (num_days : ℕ) :
    List Profile → RState → Except String (List (String × DatasetEntry))
  | [], _ => Except.ok []
  | p :: ps, s =>
      match generate_sku_data fo start_day num_days p s with
      | Except.error e => Except.error e
      | Except.ok (sd, s1) =>
          match assembleLoop fo start_day num_days ps s1 with
          | Except.error e => Except.error e
          | Except.ok rest =>
              Except.ok ((p.sku,
                { metadata := p, stats := compute_stats sd,
                  daily_data := sd.daily_data }) :: rest)

/-- `main` (lines 353–377).  Note that it performs no validation of the
profiles: every profile goes straight into `generate_sku_data`. -/
noncomputable def main (fo : FloatOracle) (start_day : ℤ) (num_days : ℕ)
    (profiles : List Profile) (s : RState) :
    Except String (List (String × DatasetEntry)) :=
  assembleLoop fo start_day num_days profiles s

/-! ### Invariants of the simulation -/

/-- The stock bookkeeping invariant of a record sequence, threaded from the
stock level before the first record: every record's end-of-day stock equals
the previous stock plus what was received minus what was sold, no stock
level is negative, and no record sells or receives a negative quantity.
Together these give `qty_sold ≤ stock_before + qty_received` for every
record. -/
def stockChain : ℤ → List DailyRecord → Prop
  | _, [] => True
  | prev, r :: rs =>
      r.stock_level = prev + r.qty_received - r.qty_sold ∧
      0 ≤ r.stock_level ∧ 0 ≤ r.qty_sold ∧ 0 ≤ r.qty_received ∧
      stockChain r.stock_level rs

/-- What anomaly injection may do to one record: dates, received
quantities and stock levels are untouched, `qty_sold` never decreases, the
anomaly flag is never cleared, and a record whose flag was newly set and
whose original `qty_sold` was at least 1 had its `qty_sold` strictly
increased. -/
def InjectRel (pre post : DailyRecord) : Prop :=
  post.date = pre.date ∧ post.qty_received = pre.qty_received ∧
  post.stock_level = pre.stock_level ∧ pre.qty_sold ≤ post.qty_sold ∧
  (pre.is_anomaly = true → post.is_anomaly = true) ∧
  (pre.is_anomaly = false → post.is_anomaly = true → 1 ≤ pre.qty_sold →
    pre.qty_sold < post.qty_sold)

theorem InjectRel.refl (r : DailyRecord) : InjectRel r r := by
  refine ⟨rfl, rfl, rfl, le_refl _, fun h => h, fun h1 h2 _ => absurd h2 ?_⟩
  simp [h1]

theorem InjectRel.trans {a b c : DailyRecord}
    (h1 : InjectRel a b) (h2 : InjectRel b c) : InjectRel a c := by
  obtain ⟨d1, r1, s1, q1, f1, st1⟩ := h1
  obtain ⟨d2, r2, s2, q2, f2, st2⟩ := h2
  refine ⟨d2.trans d1, r2.trans r1, s2.trans s1, q1.trans q2, fun h => f2 (f1 h), ?_⟩
  intro ha hc hq
  cases hb : b.is_anomaly with
  | true => exact lt_of_lt_of_le (st1 ha hb hq) q2
  | false => exact lt_of_le_of_lt q1 (st2 hb hc (hq.trans q1))

/-! ### Shared helper lemmas -/

theorem pyRound_zero {α : Type} [LinearOrderedField α] [FloorRing α] :
    pyRound (0 : α) = 0 := by
  simp [pyRound]

theorem roundTo_zero {α : Type} [LinearOrderedField α] [FloorRing α] (k : ℕ) :
    roundTo k (0 : α) = 0 := by
  simp [roundTo, pyRound_zero]

theorem pyRound_intCast {α : Type} [LinearOrderedField α] [FloorRing α] (z : ℤ) :
    pyRound (z : α) = z := by
  simp [pyRound]

theorem roundTo_one {α : Type} [LinearOrderedField α] [FloorRing α] (k : ℕ) :
    roundTo k (1 : α) = 1 := by
  unfold roundTo
  rw [one_mul, show ((10 : α) ^ k) = (((10 : ℤ) ^ k : ℤ) : α) by push_cast; ring,
    pyRound_intCast]
  push_cast
  rw [div_self (by positivity)]

/-! ### Pointwise description of the injector -/

theorem pyInt_nonneg {α : Type} [LinearOrderedField α] [FloorRing α]
    {x : α} (h : 0 ≤ x) : 0 ≤ pyInt x := by
  rw [pyInt, if_neg (not_lt.mpr h)]
  exact Int.floor_nonneg.mpr h

theorem pyInt_of_nonneg {α : Type} [LinearOrderedField α] [FloorRing α]
    {x : α} (h : 0 ≤ x) : pyInt x = ⌊x⌋ := by
  rw [pyInt, if_neg (not_lt.mpr h)]

theorem updAt_length (l : List DailyRecord) (i : ℕ) (f : DailyRecord → DailyRecord) :
    (updAt l i f).length = l.length := by
  unfold updAt
  cases h : l[i]? <;> simp [h]

theorem updAt_getElem? (l : List DailyRecord) (i : ℕ) (f : DailyRecord → DailyRecord)
    (j : ℕ) : (updAt l i f)[j]? = if i = j then (l[j]?).map f else l[j]? := by
  unfold updAt
  by_cases hij : i = j
  · subst hij
    cases h : l[i]? with
    | none => simp [h]
    | some r =>
        obtain ⟨hlt, _⟩ := List.getElem?_eq_some_iff.mp h
        simp [h, List.getElem?_set_self hlt]
  · cases h : l[i]? with
    | none => simp [h, hij]
    | some r => simp [h, hij, List.getElem?_set_ne hij]

/-- Nonnegativity of `qty_sold` at every position of a list. -/
def AllSoldNonneg (l : List DailyRecord) : Prop :=
  ∀ (j : ℕ) (r : DailyRecord), l[j]? = some r → 0 ≤ r.qty_sold

theorem allSoldNonneg_of_rel {l l2 : List DailyRecord}
    (hlen : l2.length = l.length) (h0 : AllSoldNonneg l)
    (hrel : ∀ (j : ℕ) (r r2 : DailyRecord), l[j]? = some r → l2[j]? = some r2 →
      InjectRel r r2) : AllSoldNonneg l2 := by
  intro j r2 h
  cases hl : l[j]? with
  | none =>
      rw [List.getElem?_eq_none_iff] at hl
      rw [← hlen] at hl
      rw [List.getElem?_eq_none hl] at h
      cases h
  | some r => exact le_trans (h0 j r hl) (hrel j r r2 hl h).2.2.2.1

/-- A spiked record is `InjectRel`-above the original whenever the original
`qty_sold` is nonnegative and the multiplier is at least 2.5. -/
theorem spike_rel {m : ℚ} (r : DailyRecord) (hq : 0 ≤ r.qty_sold)
    (hm : 5/2 ≤ m) : InjectRel r (spike m r) := by
  have hx : (0 : ℚ) ≤ (r.qty_sold : ℚ) * m := by
    have : (0 : ℚ) ≤ (r.qty_sold : ℚ) := by exact_mod_cast hq
    nlinarith
  refine ⟨rfl, rfl, rfl, ?_, fun _ => rfl, fun _ _ h1 => ?_⟩
  · show r.qty_sold ≤ pyInt ((r.qty_sold : ℚ) * m)
    rw [pyInt_of_nonneg hx]
    apply Int.le_floor.mpr
    have h0 : (0 : ℚ) ≤ (r.qty_sold : ℚ) := by exact_mod_cast hq
    nlinarith
  · show r.qty_sold < pyInt ((r.qty_sold : ℚ) * m)
    rw [pyInt_of_nonneg hx]
    have h1q : (1 : ℚ) ≤ (r.qty_sold : ℚ) := by exact_mod_cast h1
    have : (r.qty_sold : ℚ) + 1 ≤ (r.qty_sold : ℚ) * m := by nlinarith
    have hf : r.qty_sold + 1 ≤ ⌊(r.qty_sold : ℚ) * m⌋ := by
      apply Int.le_floor.mpr
      push_cast
      exact this
    omega

/-- One spike window leaves every position `InjectRel`-related to what it
was. -/
theorem applySpike_rel (l : List DailyRecord) (idx : ℕ) {m : ℚ}
    (hm : 5/2 ≤ m) (hq : AllSoldNonneg l) (duration : ℕ) :
    (applySpike l idx duration m).length = l.length ∧
    ∀ (j : ℕ) (r r2 : DailyRecord), l[j]? = some r →
      (applySpike l idx duration m)[j]? = some r2 → InjectRel r r2 := by
  unfold applySpike
  induction duration with
  | zero =>
      refine ⟨rfl, fun j r r2 h1 h2 => ?_⟩
      simp only [List.range_zero, List.foldl_nil] at h2
      rw [h1] at h2
      cases h2
      exact InjectRel.refl r
  | succ d ih =>
      rw [List.range_succ, List.foldl_append]
      obtain ⟨ihlen, ihrel⟩ := ih
      have hq2 : AllSoldNonneg ((List.range d).foldl
          (fun acc k => if idx + k < acc.length then updAt acc (idx + k) (spike m) else acc)
          l) := allSoldNonneg_of_rel ihlen hq ihrel
      simp only [List.foldl_cons, List.foldl_nil]
      set l2 := (List.range d).foldl
        (fun acc k => if idx + k < acc.length then updAt acc (idx + k) (spike m) else acc) l
      by_cases hin : idx + d < l2.length
      · rw [if_pos hin]
        refine ⟨by rw [updAt_length]; exact ihlen, fun j r r2 h1 h2 => ?_⟩
        rw [updAt_getElem?] at h2
        by_cases hj : idx + d = j
        · rw [if_pos hj] at h2
          cases h0 : l2[j]? with
          | none => rw [h0] at h2; cases h2
          | some rmid =>
              rw [h0] at h2
              cases h2
              exact (ihrel j r rmid h1 h0).trans (spike_rel rmid (hq2 j rmid h0) hm)
        · rw [if_neg hj] at h2
          exact ihrel j r r2 h1 h2
      · rw [if_neg hin]
        exact ⟨ihlen, ihrel⟩

/-- The whole spike loop leaves every position `InjectRel`-related to what
it was, for any sampled index list, provided the uniform entropy is
nonnegative (so every multiplier is at least 2.5). -/
theorem applySpikes_rel : ∀ (idxs : List ℕ) (l : List DailyRecord) (s : RState),
    (∀ k, 0 ≤ s.uf k) → AllSoldNonneg l →
    (applySpikes idxs l s).1.length = l.length ∧
    ∀ (j : ℕ) (r r2 : DailyRecord), l[j]? = some r →
      (applySpikes idxs l s).1[j]? = some r2 → InjectRel r r2 := by
  intro idxs
  induction idxs with
  | nil =>
      intro l s _ _
      refine ⟨rfl, fun j r r2 h1 h2 => ?_⟩
      simp only [applySpikes] at h2
      rw [h1] at h2
      cases h2
      exact InjectRel.refl r
  | cons idx rest ih =>
      intro l s hu hq
      simp only [applySpikes, draw_uniform, draw_randint]
      have hm : 5/2 ≤ 5/2 + (5 - 5/2) * s.uf s.pos := by
        have := hu s.pos
        nlinarith
      obtain ⟨hlen1, hrel1⟩ :=
        applySpike_rel l idx hm hq (1 + (bump s).nf (bump s).pos % 3)
      have hq2 : AllSoldNonneg
          (applySpike l idx (1 + (bump s).nf (bump s).pos % 3)
            (5/2 + (5 - 5/2) * s.uf s.pos)) :=
        allSoldNonneg_of_rel hlen1 hq hrel1
      have hu2 : ∀ k, 0 ≤ (bump (bump s)).uf k := hu
      obtain ⟨hlen2, hrel2⟩ := ih _ (bump (bump s)) hu2 hq2
      refine ⟨hlen2.trans hlen1, fun j r r2 h1 h2 => ?_⟩
      cases hmid : (applySpike l idx (1 + (bump s).nf (bump s).pos % 3)
          (5/2 + (5 - 5/2) * s.uf s.pos))[j]? with
      | none =>
          rw [List.getElem?_eq_none_iff] at hmid
          rw [← hlen2] at hmid
          rw [List.getElem?_eq_none hmid] at h2
          cases h2
      | some rmid =>
          exact (hrel1 j r rmid h1 hmid).trans (hrel2 j rmid r2 hmid h2)

/-- The sampling loop only advances the cursor: the oracle streams are
untouched. -/
theorem sampleAux_uf : ∀ (cnt : ℕ) (pop : List ℕ) (s : RState),
    (sampleAux cnt pop s).2.uf = s.uf
  | 0, _, _ => rfl
  | cnt + 1, pop, s => by
      simp only [sampleAux]
      exact sampleAux_uf cnt _ (bump s)

/-- `inject_anomalies`, when it succeeds, relates every position of its
output to the corresponding input position by `InjectRel` and preserves the
length. -/
theorem inject_anomalies_rel (daily : List DailyRecord) (s : RState)
    (post : List DailyRecord) (s2 : RState)
    (hu : ∀ k, 0 ≤ s.uf k) (hq : AllSoldNonneg daily)
    (hok : inject_anomalies daily s = Except.ok (post, s2)) :
    post.length = daily.length ∧
    ∀ (j : ℕ) (r r2 : DailyRecord), daily[j]? = some r → post[j]? = some r2 →
      InjectRel r r2 := by
  simp only [inject_anomalies, draw_randint, pySample] at hok
  by_cases hc : 8 + s.nf s.pos % (15 + 1 - 8) ≤ (List.range' 30 (daily.length - 35)).length
  · rw [if_pos hc] at hok
    simp only [] at hok
    have hpost : (applySpikes
        (sampleAux (8 + s.nf s.pos % (15 + 1 - 8))
          (List.range' 30 (daily.length - 35)) (bump s)).1 daily
        (sampleAux (8 + s.nf s.pos % (15 + 1 - 8))
          (List.range' 30 (daily.length - 35)) (bump s)).2).1 = post := by
      have := congrArg (fun x => match x with
        | Except.ok (p, _) => p
        | Except.error _ => daily) hok
      simpa using this
    rw [← hpost]
    refine applySpikes_rel _ daily _ ?_ hq
    intro k
    rw [sampleAux_uf]
    exact hu k
  · rw [if_neg hc] at hok
    cases hok

/-! ### Unconditional frame lemmas for the injector -/

/-- Mapping a field the update function leaves unchanged commutes past
`updAt`. -/
theorem updAt_map_field {β : Type} (l : List DailyRecord) (i : ℕ)
    (f : DailyRecord → DailyRecord) (g : DailyRecord → β)
    (hf : ∀ r, g (f r) = g r) : (updAt l i f).map g = l.map g := by
  apply List.ext_getElem?
  intro j
  rw [List.getElem?_map, List.getElem?_map, updAt_getElem?]
  by_cases hij : i = j
  · rw [if_pos hij]
    cases l[j]? with
    | none => rfl
    | some r => simp [hf r]
  · rw [if_neg hij]

/-- One spike window does not change the length, nor any record's date,
received quantity or stock level. -/
theorem applySpike_map_field {β : Type} (idx : ℕ) (m : ℚ)
    (g : DailyRecord → β) (hg : ∀ r, g (spike m r) = g r) :
    ∀ (duration : ℕ) (l : List DailyRecord),
      (applySpike l idx duration m).map g = l.map g := by
  intro duration
  unfold applySpike
  induction duration with
  | zero => intro l; rfl
  | succ d ih =>
      intro l
      rw [List.range_succ, List.foldl_append]
      simp only [List.foldl_cons, List.foldl_nil]
      by_cases hin : idx + d < ((List.range d).foldl
          (fun acc k => if idx + k < acc.length then updAt acc (idx + k) (spike m) else acc)
          l).length
      · rw [if_pos hin, updAt_map_field _ _ _ _ hg, ih l]
      · rw [if_neg hin, ih l]

/-- The whole spike loop does not change any record's date, received
quantity or stock level. -/
theorem applySpikes_map_field {β : Type} (g : DailyRecord → β)
    (hg : ∀ r (m : ℚ), g (spike m r) = g r) :
    ∀ (idxs : List ℕ) (l : List DailyRecord) (s : RState),
      (applySpikes idxs l s).1.map g = l.map g := by
  intro idxs
  induction idxs with
  | nil => intro l s; rfl
  | cons idx rest ih =>
      intro l s
      simp only [applySpikes, draw_uniform, draw_randint]
      rw [ih, applySpike_map_field _ _ _ (fun r => hg r _)]

theorem applySpike_length (idx : ℕ) (m : ℚ) :
    ∀ (duration : ℕ) (l : List DailyRecord),
      (applySpike l idx duration m).length = l.length := by
  intro duration
  unfold applySpike
  induction duration with
  | zero => intro l; rfl
  | succ d ih =>
      intro l
      rw [List.range_succ, List.foldl_append]
      simp only [List.foldl_cons, List.foldl_nil]
      by_cases hin : idx + d < ((List.range d).foldl
          (fun acc k => if idx + k < acc.length then updAt acc (idx + k) (spike m) else acc)
          l).length
      · rw [if_pos hin, updAt_length, ih l]
      · rw [if_neg hin, ih l]

theorem applySpikes_length :
    ∀ (idxs : List ℕ) (l : List DailyRecord) (s : RState),
      (applySpikes idxs l s).1.length = l.length := by
  intro idxs
  induction idxs with
  | nil => intro l s; rfl
  | cons idx rest ih =>
      intro l s
      simp only [applySpikes, draw_uniform, draw_randint]
      rw [ih, applySpike_length]

/-- Unfolding one day of a spike window. -/
theorem applySpike_succ (l : List DailyRecord) (idx dur : ℕ) (m : ℚ) :
    applySpike l idx (dur + 1) m =
      if idx + dur < (applySpike l idx dur m).length
      then updAt (applySpike l idx dur m) (idx + dur) (spike m)
      else applySpike l idx dur m := by
  unfold applySpike
  rw [List.range_succ, List.foldl_append]
  simp only [List.foldl_cons, List.foldl_nil]

/-- A spike window starting above `j` leaves position `j` unchanged. -/
theorem applySpike_getElem_lt (l : List DailyRecord) (idx dur : ℕ) (m : ℚ)
    (j : ℕ) (h : j < idx) : (applySpike l idx dur m)[j]? = l[j]? := by
  induction dur with
  | zero => rfl
  | succ d ih =>
      rw [applySpike_succ]
      by_cases hin : idx + d < (applySpike l idx d m).length
      · rw [if_pos hin, updAt_getElem?, if_neg (by omega), ih]
      · rw [if_neg hin, ih]

theorem applySpike_getElem_self (l : List DailyRecord) (idx : ℕ) (m : ℚ)
    (hlt : idx < l.length) :
    ∀ (d : ℕ), (applySpike l idx (d + 1) m)[idx]? = (l[idx]?).map (spike m)
  | 0 => by
      rw [applySpike_succ]
      simp only [show applySpike l idx 0 m = l from rfl]
      rw [if_pos (by omega), updAt_getElem?, if_pos (by omega)]
  | d + 1 => by
      rw [applySpike_succ]
      by_cases hin : idx + (d + 1) < (applySpike l idx (d + 1) m).length
      · rw [if_pos hin, updAt_getElem?, if_neg (by omega),
          applySpike_getElem_self l idx m hlt d]
      · rw [if_neg hin, applySpike_getElem_self l idx m hlt d]

/-- The start of a nonempty spike window is spiked exactly once. -/
theorem applySpike_getElem_pos (l : List DailyRecord) (idx dur : ℕ) (m : ℚ)
    (hlt : idx < l.length) (hdur : 0 < dur) :
    (applySpike l idx dur m)[idx]? = (l[idx]?).map (spike m) := by
  obtain ⟨d, rfl⟩ : ∃ d, dur = d + 1 := ⟨dur - 1, by omega⟩
  exact applySpike_getElem_self l idx m hlt d

/-! ### Success and failure of sampling and injection -/

/-- `random.sample` succeeds exactly when the requested count fits. -/
theorem pySample_ok (pop : List ℕ) (cnt : ℕ) (s : RState)
    (h : cnt ≤ pop.length) :
    pySample pop cnt s = Except.ok (sampleAux cnt pop s) := by
  rw [pySample, if_pos h]

/-- When the series has at least `n_anomalies + 35` records, injection
succeeds, and the output keeps the length and every date, received
quantity and stock level. -/
theorem inject_anomalies_ok (daily : List DailyRecord) (s : RState)
    (h : 8 + s.nf s.pos % 8 ≤ daily.length - 35) :
    inject_anomalies daily s = Except.ok
      (((applySpikes (sampleAux (8 + s.nf s.pos % 8)
          (List.range' 30 (daily.length - 35)) (bump s)).1 daily
          (sampleAux (8 + s.nf s.pos % 8)
            (List.range' 30 (daily.length - 35)) (bump s)).2)).1,
       ((applySpikes (sampleAux (8 + s.nf s.pos % 8)
          (List.range' 30 (daily.length - 35)) (bump s)).1 daily
          (sampleAux (8 + s.nf s.pos % 8)
            (List.range' 30 (daily.length - 35)) (bump s)).2)).2) := by
  have h8 : (15 + 1 - 8 : ℕ) = 8 := rfl
  simp only [inject_anomalies, draw_randint, h8]
  rw [pySample_ok _ _ _ (by rw [List.length_range']; exact h)]

/-- When the series is too short for the drawn number of anomalies,
injection fails with an error. -/
theorem inject_anomalies_err (daily : List DailyRecord) (s : RState)
    (h : daily.length - 35 < 8 + s.nf s.pos % 8) :
    inject_anomalies daily s =
      Except.error "Sample larger than population or is negative" := by
  have h8 : (15 + 1 - 8 : ℕ) = 8 := rfl
  simp only [inject_anomalies, draw_randint, h8, pySample]
  rw [if_neg (by rw [List.length_range']; omega)]

/-! ### Structural lemmas about the daily loop -/

/-- The daily loop emits exactly one record per remaining day. -/
theorem genLoop_length (fo : FloatOracle) (p : Profile) :
    ∀ (fuel : ℕ) (day : ℤ) (di : ℕ) (stock : ℤ) (s : RState),
      (genLoop fo p fuel day di stock s).1.length = fuel
  | 0, _, _, _, _ => rfl
  | fuel + 1, day, di, stock, s => by
      simp only [genLoop, List.length_cons]
      rw [genLoop_length fo p fuel]

/-- The dates the daily loop emits are exactly `day, day+1, …`: contiguous,
gap free and strictly increasing, one record per calendar day. -/
theorem genLoop_dates (fo : FloatOracle) (p : Profile) :
    ∀ (fuel : ℕ) (day : ℤ) (di : ℕ) (stock : ℤ) (s : RState),
      (genLoop fo p fuel day di stock s).1.map (fun r => r.date) =
        (List.range fuel).map (fun (i : ℕ) => day + (i : ℤ))
  | 0, _, _, _, _ => by simp [genLoop]
  | fuel + 1, day, di, stock, s => by
      simp only [genLoop, List.map_cons]
      rw [genLoop_dates fo p fuel, List.range_succ_eq_map]
      simp only [List.map_cons, List.map_map, Nat.cast_zero, add_zero]
      congr 1
      apply List.map_congr_left
      intro a _
      simp only [Function.comp_apply]
      push_cast
      ring

/-- The daily loop only advances the random cursor; the oracle streams are
untouched. -/
theorem genLoop_uf (fo : FloatOracle) (p : Profile) :
    ∀ (fuel : ℕ) (day : ℤ) (di : ℕ) (stock : ℤ) (s : RState),
      (genLoop fo p fuel day di stock s).2.uf = s.uf
  | 0, _, _, _, _ => rfl
  | fuel + 1, day, di, stock, s => by
      simp only [genLoop, weekday_factor, draw_random, draw_gauss, draw_uniform, bump]
      by_cases hrs : (stock : ℚ) <
          (p.base_daily_demand : ℚ) * (p.lead_time_days : ℚ) * (12/10)
      · simp only [if_pos hrs]
        rw [genLoop_uf fo p fuel]
      · simp only [if_neg hrs]
        rw [genLoop_uf fo p fuel]

/-- One day of stock bookkeeping satisfies the chain invariant. -/
theorem chain_cons (prev qr qs : ℤ) (rest : List DailyRecord) (day : ℤ)
    (hprev : 0 ≤ prev) (hqs : 0 ≤ qs) (hqr : 0 ≤ qr)
    (hrest : stockChain (if prev + qr - qs < 0 then 0 else prev + qr - qs) rest) :
    stockChain prev
      ({ date := day,
         qty_sold := if prev + qr - qs < 0 then qs + (prev + qr - qs) else qs,
         qty_received := qr,
         stock_level := if prev + qr - qs < 0 then 0 else prev + qr - qs,
         is_anomaly := false } :: rest) := by
  refine ⟨?_, ?_, ?_, hqr, hrest⟩ <;> dsimp only <;> split_ifs <;> omega

/-- The records of the daily loop satisfy the stock chain invariant from
any nonnegative starting stock, for every well-formed random source and
float oracle and every profile with nonnegative base demand. -/
theorem genLoop_stockChain (fo : FloatOracle) (p : Profile)
    (hbase : 0 ≤ p.base_daily_demand) (hexp : ExpNonneg fo) :
    ∀ (fuel : ℕ) (day : ℤ) (di : ℕ) (stock : ℤ) (s : RState),
      (∀ k, 0 ≤ s.uf k) → 0 ≤ stock →
      stockChain stock (genLoop fo p fuel day di stock s).1
  | 0, _, _, _, _, _, _ => trivial
  | fuel + 1, day, di, stock, s, hu, hstock => by
      have hbq : (0 : ℚ) ≤ (p.base_daily_demand : ℚ) := by exact_mod_cast hbase
      simp only [genLoop, weekday_factor, draw_random, draw_gauss, draw_uniform,
        trend_factor_val, bump]
      by_cases hrs : (stock : ℚ) <
          (p.base_daily_demand : ℚ) * (p.lead_time_days : ℚ) * (12/10)
      · simp only [if_pos hrs]
        apply chain_cons _ _ _ _ _ hstock (le_max_left 0 _) ?_ ?_
        · apply pyInt_nonneg
          have h14 : (0 : ℚ) ≤ 14 + (28 - 14) * s.uf (s.pos + 1 + 1) := by
            nlinarith [(hu (s.pos + 1 + 1)).le, hu (s.pos + 1 + 1)]
          exact mul_nonneg (mul_nonneg hbq h14) (hexp _)
        · exact genLoop_stockChain fo p hbase hexp fuel _ _ _ _ hu
            (by split_ifs <;> omega)
      · simp only [if_neg hrs]
        apply chain_cons _ _ _ _ _ hstock (le_max_left 0 _) (le_refl 0) ?_
        exact genLoop_stockChain fo p hbase hexp fuel _ _ _ _ hu
          (by split_ifs <;> omega)

/-! ### Inversion and totality of generation -/

/-- A successful injection preserves the length and the per-index dates,
received quantities and stock levels, unconditionally. -/
theorem inject_anomalies_frame (daily : List DailyRecord) (s : RState)
    (post : List DailyRecord) (s2 : RState)
    (hok : inject_anomalies daily s = Except.ok (post, s2)) :
    post.length = daily.length ∧
    post.map (fun r => r.date) = daily.map (fun r => r.date) ∧
    post.map (fun r => r.qty_received) = daily.map (fun r => r.qty_received) ∧
    post.map (fun r => r.stock_level) = daily.map (fun r => r.stock_level) := by
  simp only [inject_anomalies, draw_randint, pySample] at hok
  by_cases hc : 8 + s.nf s.pos % (15 + 1 - 8) ≤ (List.range' 30 (daily.length - 35)).length
  · rw [if_pos hc] at hok
    simp only [] at hok
    have hpost : (applySpikes
        (sampleAux (8 + s.nf s.pos % (15 + 1 - 8))
          (List.range' 30 (daily.length - 35)) (bump s)).1 daily
        (sampleAux (8 + s.nf s.pos % (15 + 1 - 8))
          (List.range' 30 (daily.length - 35)) (bump s)).2).1 = post := by
      have := congrArg (fun x => match x with
        | Except.ok (p, _) => p
        | Except.error _ => daily) hok
      simpa using this
    rw [← hpost]
    exact ⟨applySpikes_length _ _ _,
      applySpikes_map_field (fun r => r.date) (fun r m => rfl) _ _ _,
      applySpikes_map_field (fun r => r.qty_received) (fun r m => rfl) _ _ _,
      applySpikes_map_field (fun r => r.stock_level) (fun r m => rfl) _ _ _⟩
  · rw [if_neg hc] at hok
    cases hok

/-- Inverting a successful `generate_sku_data`: its daily data is a
successful injection of the daily loop's records. -/
theorem generate_sku_data_inv (fo : FloatOracle) (p : Profile)
    (start_day : ℤ) (num_days : ℕ) (s : RState) (sd : SkuData) (s2 : RState)
    (hok : generate_sku_data fo start_day num_days p s = Except.ok (sd, s2)) :
    inject_anomalies
        (genLoop fo p num_days start_day 0 (p.base_daily_demand * 30) s).1
        (genLoop fo p num_days start_day 0 (p.base_daily_demand * 30) s).2 =
      Except.ok (sd.daily_data, s2) ∧ sd.lead_time_days = p.lead_time_days := by
  simp only [generate_sku_data] at hok
  cases hinj : inject_anomalies
      (genLoop fo p num_days start_day 0 (p.base_daily_demand * 30) s).1
      (genLoop fo p num_days start_day 0 (p.base_daily_demand * 30) s).2 with
  | error e => rw [hinj] at hok; simp at hok
  | ok pr =>
      obtain ⟨post, st⟩ := pr
      rw [hinj] at hok
      simp only [Except.ok.injEq, Prod.mk.injEq] at hok
      obtain ⟨hsd, hst⟩ := hok
      subst hst
      subst hsd
      exact ⟨rfl, rfl⟩

/-- Every record of a chain-invariant list has nonnegative `qty_sold` and
`stock_level`. -/
theorem stockChain_nonneg :
    ∀ (l : List DailyRecord) (prev : ℤ), stockChain prev l →
      ∀ (j : ℕ) (r : DailyRecord), l[j]? = some r →
        0 ≤ r.qty_sold ∧ 0 ≤ r.stock_level
  | [], _, _, j, r, h => by simp at h
  | x :: xs, prev, hch, j, r, h => by
      obtain ⟨_, hs, hq, _, htail⟩ := hch
      cases j with
      | zero =>
          simp only [List.getElem?_cons_zero, Option.some.injEq] at h
          subst h
          exact ⟨hq, hs⟩
      | succ jj =>
          rw [List.getElem?_cons_succ] at h
          exact stockChain_nonneg xs _ htail jj r h

/-- Whenever the date range spans at least 50 days, generation of one SKU
always succeeds (the anomaly count 8–15 always fits below
`num_days − 35`), with one record per day and the dates of the whole
range in order. -/
theorem generate_sku_data_props (fo : FloatOracle) (p : Profile)
    (start_day : ℤ) (num_days : ℕ) (s : RState) (h : 50 ≤ num_days) :
    ∃ (sd : SkuData) (s2 : RState),
      generate_sku_data fo start_day num_days p s = Except.ok (sd, s2) ∧
      sd.daily_data.length = num_days ∧
      sd.daily_data.map (fun r => r.date) =
        (List.range num_days).map (fun (i : ℕ) => start_day + (i : ℤ)) := by
  simp only [generate_sku_data]
  have hlen := genLoop_length fo p num_days start_day 0 (p.base_daily_demand * 30) s
  have hmod : (genLoop fo p num_days start_day 0 (p.base_daily_demand * 30) s).2.nf
      (genLoop fo p num_days start_day 0 (p.base_daily_demand * 30) s).2.pos % 8 < 8 :=
    Nat.mod_lt _ (by norm_num)
  rw [inject_anomalies_ok _ _ (by omega)]
  refine ⟨_, _, rfl, ?_, ?_⟩
  · rw [applySpikes_length, hlen]
  · rw [applySpikes_map_field (fun r => r.date) (fun r m => rfl), genLoop_dates]

/-- The assembler loop returns one dataset entry per profile whenever it
succeeds. -/
theorem assembleLoop_ok_length (fo : FloatOracle) (start_day : ℤ)
    (num_days : ℕ) :
    ∀ (ps : List Profile) (s : RState) (d : List (String × DatasetEntry)),
      assembleLoop fo start_day num_days ps s = Except.ok d →
      d.length = ps.length
  | [], s, d, h => by
      simp only [assembleLoop, Except.ok.injEq] at h
      subst h
      rfl
  | p :: ps, s, d, h => by
      simp only [assembleLoop] at h
      cases hg : generate_sku_data fo start_day num_days p s with
      | error e => rw [hg] at h; simp at h
      | ok pr =>
          obtain ⟨sd, s1⟩ := pr
          rw [hg] at h
          dsimp only at h
          cases ha : assembleLoop fo start_day num_days ps s1 with
          | error e => rw [ha] at h; simp at h
          | ok rest =>
              rw [ha] at h
              dsimp only at h
              simp only [Except.ok.injEq] at h
              subst h
              simp only [List.length_cons]
              rw [assembleLoop_ok_length fo start_day num_days ps s1 rest ha]

/-- The assembler loop succeeds on every profile list — valid or not —
whenever the date range spans at least 50 days. -/
theorem assembleLoop_total (fo : FloatOracle) (start_day : ℤ)
    (num_days : ℕ) (h : 50 ≤ num_days) :
    ∀ (ps : List Profile) (s : RState),
      ∃ d, assembleLoop fo start_day num_days ps s = Except.ok d ∧
        d.length = ps.length
  | [], s => ⟨[], rfl, rfl⟩
  | p :: ps, s => by
      obtain ⟨sd, s1, hg, _, _⟩ := generate_sku_data_props fo p start_day num_days s h
      obtain ⟨rest, ha, hlen⟩ := assembleLoop_total fo start_day num_days h ps s1
      refine ⟨(p.sku, DatasetEntry.mk p (compute_stats sd) sd.daily_data) :: rest, ?_, ?_⟩
      · simp only [assembleLoop]
        rw [hg]
        dsimp only
        rw [ha]
      · simp [hlen]

/-! ### Rounding error bounds and month partitions (for the seasonal index) -/

/-- Half-to-even rounding is off by at most one half. -/
theorem pyRound_err (x : ℚ) : |(pyRound x : ℚ) - x| ≤ 1/2 := by
  simp only [pyRound]
  have h1 := Int.floor_le x
  have h2 := Int.lt_floor_add_one x
  split_ifs with ha hb hc <;>
    · rw [abs_le]
      constructor <;> push_cast <;> linarith

/-- Rounding to `k` decimals is off by at most `1/(2·10^k)`. -/
theorem roundTo_err (k : ℕ) (x : ℚ) :
    |roundTo k x - x| ≤ 1 / (2 * 10 ^ k) := by
  have h := pyRound_err (x * 10 ^ k)
  have hpow : (0 : ℚ) < 10 ^ k := by positivity
  unfold roundTo
  rw [show (pyRound (x * 10 ^ k) : ℚ) / 10 ^ k - x =
      ((pyRound (x * 10 ^ k) : ℚ) - x * 10 ^ k) / 10 ^ k by field_simp <;> ring,
    abs_div, abs_of_pos hpow, div_le_div_iff hpow (by positivity)]
  calc |(pyRound (x * 10 ^ k) : ℚ) - x * 10 ^ k| * (2 * 10 ^ k) ≤
        (1/2) * (2 * 10 ^ k) := by
          apply mul_le_mul_of_nonneg_right h (by positivity)
    _ = 1 * 10 ^ k := by ring

theorem sum_map_add {β M : Type} [AddCommMonoid M] (l : List β)
    (f g : β → M) :
    (l.map (fun x => f x + g x)).sum = (l.map f).sum + (l.map g).sum := by
  induction l with
  | nil => simp
  | cons x xs ih =>
      simp only [List.map_cons, List.sum_cons, ih]
      abel

/-- Exactly one month slot of `1…12` matches a month in range. -/
theorem sum_ite_single {M : Type} [AddCommMonoid M] (mo : ℤ) (h1 : 1 ≤ mo)
    (h2 : mo ≤ 12) (x : M) :
    ((List.range 12).map (fun (j : ℕ) => if mo = (j : ℤ) + 1 then x else 0)).sum = x := by
  rw [show List.range 12 = [0, 1, 2, 3, 4, 5, 6, 7, 8, 9, 10, 11] from rfl]
  interval_cases mo <;> simp

/-- Splitting a sum over the records by calendar month loses nothing when
every month is in `1…12`. -/
theorem sum_partition {M : Type} [AddCommMonoid M] (f : DailyRecord → M) :
    ∀ (l : List DailyRecord),
      (∀ r ∈ l, 1 ≤ civilMonth r.date ∧ civilMonth r.date ≤ 12) →
      ((List.range 12).map (fun (j : ℕ) =>
        ((l.filter (fun d => civilMonth d.date = (j : ℤ) + 1)).map f).sum)).sum =
        (l.map f).sum
  | [], _ => by simp
  | d :: l, hcov => by
      have hd := hcov d (List.mem_cons_self d l)
      have hl : ∀ r ∈ l, 1 ≤ civilMonth r.date ∧ civilMonth r.date ≤ 12 :=
        fun r hr => hcov r (List.mem_cons_of_mem d hr)
      have ih := sum_partition f l hl
      have hfun : ∀ j ∈ List.range 12,
          (((d :: l).filter (fun x => civilMonth x.date = (j : ℤ) + 1)).map f).sum =
          (if civilMonth d.date = (j : ℤ) + 1 then f d else 0) +
            ((l.filter (fun x => civilMonth x.date = (j : ℤ) + 1)).map f).sum := by
        intro j _
        by_cases hj : civilMonth d.date = (j : ℤ) + 1
        · simp [List.filter_cons, hj]
        · simp [List.filter_cons, hj]
      rw [List.map_congr_left hfun, sum_map_add, sum_ite_single _ hd.1 hd.2, ih,
        List.map_cons, List.sum_cons]

/-- Splitting the record count by calendar month loses nothing when every
month is in `1…12`. -/
theorem length_partition :
    ∀ (l : List DailyRecord),
      (∀ r ∈ l, 1 ≤ civilMonth r.date ∧ civilMonth r.date ≤ 12) →
      ((List.range 12).map (fun (j : ℕ) =>
        (l.filter (fun d => civilMonth d.date = (j : ℤ) + 1)).length)).sum =
        l.length := by
  intro l hcov
  have h := sum_partition (fun _ => (1 : ℕ)) l hcov
  have hlen : ∀ (l2 : List DailyRecord),
      (l2.map (fun _ => (1 : ℕ))).sum = l2.length := by
    intro l2
    induction l2 with
    | nil => rfl
    | cons x xs ih =>
        simp only [List.map_cons, List.sum_cons, List.length_cons, ih]
        omega
  rw [← hlen l, ← h]
  congr 1
  apply List.map_congr_left
  intro j _
  rw [hlen]

/-- Summed elementwise deviation bound. -/
theorem sum_sub_bound (g h : ℕ → ℚ) (b : ℚ) (hb : ∀ j, |g j - h j| ≤ b) :
    ∀ (l : List ℕ), |(l.map g).sum - (l.map h).sum| ≤ l.length * b
  | [] => by simp
  | x :: xs => by
      simp only [List.map_cons, List.sum_cons, List.length_cons]
      have h1 := hb x
      have h2 := sum_sub_bound g h b hb xs
      have h3 : |g x + (xs.map g).sum - (h x + (xs.map h).sum)| ≤
          |g x - h x| + |(xs.map g).sum - (xs.map h).sum| := by
        have := abs_add (g x - h x) ((xs.map g).sum - (xs.map h).sum)
        calc |g x + (xs.map g).sum - (h x + (xs.map h).sum)| =
            |(g x - h x) + ((xs.map g).sum - (xs.map h).sum)| := by ring_nf
          _ ≤ _ := this
      calc |g x + (xs.map g).sum - (h x + (xs.map h).sum)| ≤
            |g x - h x| + |(xs.map g).sum - (xs.map h).sum| := h3
        _ ≤ b + xs.length * b := add_le_add h1 h2
        _ = (xs.length + 1) * b := by ring
        _ = ((xs.length + 1 : ℕ) : ℚ) * b := by push_cast; ring

/-! ### Shared concrete inputs for witnesses and counterexamples -/

/-- A float oracle whose cosine outcomes are all `0` and whose exponential
outcomes are all `1` (the exact float outcomes for amplitude-irrelevant
months and zero trend). -/
def fo0 : FloatOracle := ⟨fun _ => 0, fun _ => 1⟩

/-- A concrete random-source state: all uniform entropy `0`, all integer
entropy `0`, and Gaussian outcomes `−10` except draw 61 (the day-30
Gaussian), which is `394/3`. -/
def s0 : RState := ⟨fun _ => 0, fun k => if k = 61 then 394/3 else -10, fun _ => 0, 0⟩

/-- A plain valid profile used in witnesses. -/
def pW : Profile :=
  { sku := "SKU-1", name := "Widget", category := "Misc", location := "Shelf",
    unit_cost := 1, sell_price := 2, lead_time_days := 7,
    base_daily_demand := 1, trend := 0, seasonal_peak_month := 1,
    seasonal_amplitude := 0 }

/-- A SkuData with an empty daily series. -/
def sdEmpty : SkuData :=
  { sku := "SKU-0", name := "None", category := "Misc", location := "Shelf",
    unit_cost := 1, sell_price := 2, lead_time_days := 7, daily_data := [] }

/-! ### C10: `compute_stats` on the empty series -/

/-- C10: `compute_stats` is total on the empty daily series: it returns 0
for the 7/30/90-day averages, 0 for the 30-day standard deviation, 0 for
the trend slope, 1.0 for every seasonal index, 0 for current stock, the
sentinel 999 for days-until-stockout, 0 for the recent anomaly count and 0
for the year-over-year change. -/
theorem C10_empty_series (sd : SkuData) (h : sd.daily_data = []) :
    (compute_stats sd).avg_daily_demand_7d = 0 ∧
    (compute_stats sd).avg_daily_demand_30d = 0 ∧
    (compute_stats sd).avg_daily_demand_90d = 0 ∧
    (compute_stats sd).std_deviation_30d = 0 ∧
    (compute_stats sd).trend_slope_90d = 0 ∧
    (compute_stats sd).seasonal_factors = List.replicate 12 1 ∧
    (compute_stats sd).current_stock = 0 ∧
    (compute_stats sd).days_until_stockout = 999 ∧
    (compute_stats sd).recent_anomaly_count = 0 ∧
    (compute_stats sd).yoy_change_pct = 0 := by
  simp [compute_stats, h, roundTo_zero, roundTo_one, Real.sqrt_zero]

/-- Witness for C10 at the concrete empty series. -/
theorem C10_witness :
    sdEmpty.daily_data = [] ∧ (compute_stats sdEmpty).yoy_change_pct = 0 :=
  ⟨rfl, (C10_empty_series sdEmpty rfl).2.2.2.2.2.2.2.2.2⟩

/-! ### C4: determinism -/

/-- C4: the generator is a deterministic function of the random source
state, the float oracle, the date range and the profiles: two runs with
identical inputs produce identical per-SKU data (hence identical
DailyRecord sequences) and identical assembled datasets (hence identical
SkuStats). -/
theorem C4_determinism (fo1 fo2 : FloatOracle) (start1 start2 : ℤ)
    (num1 num2 : ℕ) (ps1 ps2 : List Profile) (p1 p2 : Profile)
    (s1 s2 : RState) (hfo : fo1 = fo2) (hstart : start1 = start2)
    (hnum : num1 = num2) (hps : ps1 = ps2) (hp : p1 = p2) (hs : s1 = s2) :
    generate_sku_data fo1 start1 num1 p1 s1 =
      generate_sku_data fo2 start2 num2 p2 s2 ∧
    main fo1 start1 num1 ps1 s1 = main fo2 start2 num2 ps2 s2 := by
  subst hfo hstart hnum hps hp hs
  exact ⟨rfl, rfl⟩

/-- Witness for C4 at concrete inputs. -/
theorem C4_witness :
    generate_sku_data fo0 0 50 pW s0 = generate_sku_data fo0 0 50 pW s0 ∧
    main fo0 0 50 [pW] s0 = main fo0 0 50 [pW] s0 :=
  C4_determinism fo0 fo0 0 0 50 50 [pW] [pW] pW pW s0 s0 rfl rfl rfl rfl rfl rfl

/-! ### C6: the seasonal factor -/

/-- C6 (amended): `seasonal_factor` equals
`1 + amplitude · cos(2π(month − peakMonth)/12)` for all inputs, and it is
strictly positive whenever `0 ≤ amplitude < 1`.  (At `amplitude = 1` it
can be exactly `0`, see the counterexample.) -/
theorem C6_seasonal_factor (month peak_month : ℤ) (amplitude : ℝ)
    (h0 : 0 ≤ amplitude) (h1 : amplitude < 1) :
    seasonal_factor month peak_month amplitude =
      1 + amplitude *
        Real.cos (2 * Real.pi * (((month : ℝ) - (peak_month : ℝ)) / 12)) ∧
    0 < seasonal_factor month peak_month amplitude := by
  constructor
  · unfold seasonal_factor
    congr 2
    push_cast
    ring
  · unfold seasonal_factor
    have hc := Real.neg_one_le_cos
      (((month - peak_month : ℤ) : ℝ) * (2 * Real.pi / 12))
    have hc2 := Real.cos_le_one
      (((month - peak_month : ℤ) : ℝ) * (2 * Real.pi / 12))
    nlinarith

/-- Witness for C6 at month 11, peak month 11, amplitude 1/2. -/
theorem C6_witness :
    (0 : ℝ) ≤ 1/2 ∧ (1 : ℝ)/2 < 1 ∧ 0 < seasonal_factor 11 11 (1/2) :=
  ⟨by norm_num, by norm_num,
    (C6_seasonal_factor 11 11 (1/2) (by norm_num) (by norm_num)).2⟩

/-- C6 counterexample to the claim as stated: at amplitude exactly 1
(which satisfies `amplitude ≤ 1`) and `month − peak_month = −6` the factor
is exactly 0, not strictly positive. -/
theorem C6_counterexample :
    seasonal_factor 1 7 1 = 0 ∧ (1 : ℝ) ≤ 1 := by
  refine ⟨?_, le_refl 1⟩
  unfold seasonal_factor
  have h : (((1 - 7 : ℤ) : ℝ) * (2 * Real.pi / 12)) = -Real.pi := by
    push_cast
    ring
  rw [h, Real.cos_neg, Real.cos_pi]
  norm_num

/-! ### C1: year-over-year change on short series -/

/-- For any value of the trailing average, comparing it against itself
gives a rounded year-over-year change of exactly 0. -/
theorem yoy_self_zero (a : ℚ) :
    roundTo 1 (if 0 < a then (a - a) / a * 100 else 0) = 0 := by
  split_ifs with h
  · simp [roundTo_zero]
  · exact roundTo_zero 1

/-- C1 (amended): the year-over-year change computed by `compute_stats` is
exactly 0 whenever the series has at most 366 records (then
`ly_end = max(0, len − 366) = 0` and no prior-year window is used, so the
trailing average is compared with itself).  For lengths 367–394 the source
compares against a partial window starting at index 0, so the change need
not be 0 — see the counterexample. -/
theorem C1_yoy_short_series (sd : SkuData) (h : sd.daily_data.length ≤ 366) :
    (compute_stats sd).yoy_change_pct = 0 := by
  have hcond : ¬ (max 0 ((sd.daily_data.length : ℤ) - 1 - 365 - 30) <
      max 0 ((sd.daily_data.length : ℤ) - 1 - 365)) := by omega
  simp only [compute_stats]
  rw [if_neg hcond]
  exact yoy_self_zero _

/-- Witness for C1 at the concrete empty series. -/
theorem C1_witness :
    sdEmpty.daily_data.length ≤ 366 ∧ (compute_stats sdEmpty).yoy_change_pct = 0 :=
  ⟨by simp [sdEmpty], C1_yoy_short_series sdEmpty (by simp [sdEmpty])⟩

theorem isEmpty_replicate {α : Type} (n : ℕ) (a : α) :
    (List.replicate n a).isEmpty = decide (n = 0) := by
  cases n <;> simp

/-- A 367-day contiguous daily series: day 0 sells 1 unit, days 1–366
sell 2 units each. -/
def cex367 : List DailyRecord :=
  { date := 0, qty_sold := 1, qty_received := 0, stock_level := 0, is_anomaly := false } ::
    (List.range 366).map (fun (i : ℕ) =>
      { date := (i : ℤ) + 1, qty_sold := 2, qty_received := 0, stock_level := 0,
        is_anomaly := false })

/-- The C1 counterexample series packed as SkuData. -/
def sd367 : SkuData :=
  { sku := "SKU-C1", name := "Cex", category := "Misc", location := "Shelf",
    unit_cost := 1, sell_price := 2, lead_time_days := 7, daily_data := cex367 }

/-! ### C9: the seasonal index mean -/

/-- The records of a series falling in month `j + 1`. -/
def monthFilter (daily : List DailyRecord) (j : ℕ) : List DailyRecord :=
  daily.filter (fun d => civilMonth d.date = (j : ℤ) + 1)

/-- Total quantity sold in month `j + 1`. -/
def monthSold (daily : List DailyRecord) (j : ℕ) : ℚ :=
  ((monthFilter daily j).map (fun d => (d.qty_sold : ℚ))).sum

/-- C9 (amended): when every calendar month holds the same positive number
of observations and the total demand is nonzero, the 12 seasonal index
values computed by `compute_stats` average to 1 up to the 3-decimal
rounding of each entry (within `1/2000`).  With unequal month populations
the unweighted mean of the ratios need not be near 1 — see the
counterexample. -/
theorem C9_seasonal_mean (sd : SkuData) (c : ℕ) (hc : 0 < c)
    (hcov : ∀ r ∈ sd.daily_data, 1 ≤ civilMonth r.date ∧ civilMonth r.date ≤ 12)
    (hcnt : ∀ m : ℤ, 1 ≤ m → m ≤ 12 →
      (sd.daily_data.filter (fun d => civilMonth d.date = m)).length = c)
    (hT : (sd.daily_data.map (fun d => (d.qty_sold : ℚ))).sum ≠ 0) :
    |(compute_stats sd).seasonal_factors.sum / 12 - 1| ≤ 1/2000 := by
  have hL : sd.daily_data.length = 12 * c := by
    have h1 := length_partition sd.daily_data hcov
    have h2 : ((List.range 12).map (fun (j : ℕ) =>
        (sd.daily_data.filter (fun d => civilMonth d.date = (j : ℤ) + 1)).length)).sum =
        ((List.range 12).map (fun (_ : ℕ) => c)).sum := by
      congr 1
      apply List.map_congr_left
      intro j hj
      rw [List.mem_range] at hj
      exact hcnt ((j : ℤ) + 1) (by omega) (by omega)
    have h3 : ((List.range 12).map (fun (_ : ℕ) => c)).sum = 12 * c := by
      simp
      omega
    omega
  have hne : ¬ (sd.daily_data.isEmpty = true) := by
    rw [List.isEmpty_iff_length_eq_zero, hL]
    omega
  have hLq : ((sd.daily_data.length : ℚ)) = 12 * c := by
    rw [hL]
    push_cast
    ring
  have hcq : ((c : ℚ)) ≠ 0 := by
    exact_mod_cast Nat.pos_iff_ne_zero.mp hc
  have hover : (if sd.daily_data.isEmpty then (1 : ℚ)
      else (sd.daily_data.map (fun d => (d.qty_sold : ℚ))).sum / sd.daily_data.length) =
      (sd.daily_data.map (fun d => (d.qty_sold : ℚ))).sum / (12 * c) := by
    rw [if_neg hne, hLq]
  have hover_ne : (sd.daily_data.map (fun d => (d.qty_sold : ℚ))).sum / ((12 : ℚ) * c) ≠ 0 :=
    div_ne_zero hT (by positivity)
  have hproj : (compute_stats sd).seasonal_factors =
      (List.range 12).map (fun (j : ℕ) =>
        let m : ℤ := (j : ℤ) + 1
        let monthly := sd.daily_data.filter (fun d => civilMonth d.date = m)
        let m_avg : ℚ :=
          if monthly.isEmpty then
            (if sd.daily_data.isEmpty then 1
             else (sd.daily_data.map (fun d => (d.qty_sold : ℚ))).sum / sd.daily_data.length)
          else (monthly.map (fun d => (d.qty_sold : ℚ))).sum / monthly.length
        if (if sd.daily_data.isEmpty then (1 : ℚ)
            else (sd.daily_data.map (fun d => (d.qty_sold : ℚ))).sum / sd.daily_data.length) ≠ 0
        then roundTo 3 (m_avg /
            (if sd.daily_data.isEmpty then (1 : ℚ)
             else (sd.daily_data.map (fun d => (d.qty_sold : ℚ))).sum / sd.daily_data.length))
        else 1) := rfl
  have helem : ∀ j ∈ List.range 12,
      (let m : ℤ := (j : ℤ) + 1
       let monthly := sd.daily_data.filter (fun d => civilMonth d.date = m)
       let m_avg : ℚ :=
         if monthly.isEmpty then
           (if sd.daily_data.isEmpty then 1
            else (sd.daily_data.map (fun d => (d.qty_sold : ℚ))).sum / sd.daily_data.length)
         else (monthly.map (fun d => (d.qty_sold : ℚ))).sum / monthly.length
       if (if sd.daily_data.isEmpty then (1 : ℚ)
           else (sd.daily_data.map (fun d => (d.qty_sold : ℚ))).sum / sd.daily_data.length) ≠ 0
       then roundTo 3 (m_avg /
           (if sd.daily_data.isEmpty then (1 : ℚ)
            else (sd.daily_data.map (fun d => (d.qty_sold : ℚ))).sum / sd.daily_data.length))
       else 1) =
      roundTo 3 (12 * monthSold sd.daily_data j /
        (sd.daily_data.map (fun d => (d.qty_sold : ℚ))).sum) := by
    intro j hj
    rw [List.mem_range] at hj
    have hflen : (sd.daily_data.filter
        (fun d => civilMonth d.date = (j : ℤ) + 1)).length = c :=
      hcnt ((j : ℤ) + 1) (by omega) (by omega)
    have hfne : ¬ ((sd.daily_data.filter
        (fun d => civilMonth d.date = (j : ℤ) + 1)).isEmpty = true) := by
      rw [List.isEmpty_iff_length_eq_zero, hflen]
      omega
    simp only [hover, if_neg hfne, if_pos hover_ne]
    congr 1
    rw [monthSold, monthFilter, hflen]
    field_simp
    ring
  rw [hproj, List.map_congr_left helem]
  have hq : ((List.range 12).map (fun (j : ℕ) =>
      12 * monthSold sd.daily_data j /
        (sd.daily_data.map (fun d => (d.qty_sold : ℚ))).sum)).sum = 12 := by
    have hfun : (fun (j : ℕ) =>
        12 * monthSold sd.daily_data j /
          (sd.daily_data.map (fun d => (d.qty_sold : ℚ))).sum) =
        (fun (j : ℕ) =>
          (12 / (sd.daily_data.map (fun d => (d.qty_sold : ℚ))).sum) *
            monthSold sd.daily_data j) := by
      funext j
      ring
    rw [hfun, List.sum_map_mul_left]
    have hpart : ((List.range 12).map (fun (j : ℕ) =>
        monthSold sd.daily_data j)).sum =
        (sd.daily_data.map (fun d => (d.qty_sold : ℚ))).sum := by
      simp only [monthSold, monthFilter]
      exact sum_partition (fun d => (d.qty_sold : ℚ)) sd.daily_data hcov
    rw [hpart]
    field_simp
  have hdev := sum_sub_bound
    (fun j => roundTo 3 (12 * monthSold sd.daily_data j /
      (sd.daily_data.map (fun d => (d.qty_sold : ℚ))).sum))
    (fun j => 12 * monthSold sd.daily_data j /
      (sd.daily_data.map (fun d => (d.qty_sold : ℚ))).sum)
    (1/2000)
    (fun j => by
      have h5 := roundTo_err 3 (12 * monthSold sd.daily_data j /
        (sd.daily_data.map (fun d => (d.qty_sold : ℚ))).sum)
      norm_num at h5
      linarith [h5])
    (List.range 12)
  rw [List.length_range, hq] at hdev
  have hrw : ((List.range 12).map (fun (j : ℕ) =>
      roundTo 3 (12 * monthSold sd.daily_data j /
        (sd.daily_data.map (fun d => (d.qty_sold : ℚ))).sum))).sum / 12 - 1 =
      (((List.range 12).map (fun (j : ℕ) =>
        roundTo 3 (12 * monthSold sd.daily_data j /
          (sd.daily_data.map (fun d => (d.qty_sold : ℚ))).sum))).sum - 12) / 12 := by
    ring
  rw [hrw, abs_div, show |(12 : ℚ)| = 12 by norm_num,
    div_le_iff (by norm_num : (0 : ℚ) < 12)]
  calc |((List.range 12).map (fun (j : ℕ) =>
        roundTo 3 (12 * monthSold sd.daily_data j /
          (sd.daily_data.map (fun d => (d.qty_sold : ℚ))).sum))).sum - 12| ≤
        12 * (1/2000) := hdev
    _ = 1/2000 * 12 := by ring

/-- A series with exactly one record (selling 1 unit) in each calendar
month of 1970. -/
def sdW9 : SkuData :=
  { sku := "SKU-W9", name := "Even", category := "Misc", location := "Shelf",
    unit_cost := 1, sell_price := 2, lead_time_days := 7,
    daily_data :=
      [⟨0, 1, 0, 0, false⟩, ⟨31, 1, 0, 0, false⟩, ⟨59, 1, 0, 0, false⟩,
       ⟨90, 1, 0, 0, false⟩, ⟨120, 1, 0, 0, false⟩, ⟨151, 1, 0, 0, false⟩,
       ⟨181, 1, 0, 0, false⟩, ⟨212, 1, 0, 0, false⟩, ⟨243, 1, 0, 0, false⟩,
       ⟨273, 1, 0, 0, false⟩, ⟨304, 1, 0, 0, false⟩, ⟨334, 1, 0, 0, false⟩] }

/-- Witness for C9 on the equal-month series. -/
theorem C9_witness :
    (0 : ℕ) < 1 ∧ |(compute_stats sdW9).seasonal_factors.sum / 12 - 1| ≤ 1/2000 :=
  ⟨by norm_num,
   C9_seasonal_mean sdW9 1 (by norm_num)
     (by decide)
     (by
       intro m h1 h2
       interval_cases m <;> decide)
     (by norm_num [sdW9])⟩

theorem cons_eq_nil_false {α : Type} (a : α) (l : List α) :
    ((a :: l : List α) = []) = False := by simp

/-- Two January records selling 1 each and one February record selling
10. -/
def sd9 : SkuData :=
  { sku := "SKU-C9", name := "Skew", category := "Misc", location := "Shelf",
    unit_cost := 1, sell_price := 2, lead_time_days := 7,
    daily_data :=
      [⟨0, 1, 0, 0, false⟩, ⟨1, 1, 0, 0, false⟩, ⟨31, 10, 0, 0, false⟩] }

/-- C9 counterexample to the claim as stated: a nonempty series with
nonzero overall average whose 12 seasonal index values average to exactly
17/16 = 1.0625 — off from 1 by 1/16, far beyond floating-point
tolerance — because the months hold unequal numbers of observations. -/
theorem C9_counterexample :
    sd9.daily_data ≠ [] ∧
    (sd9.daily_data.map (fun d => (d.qty_sold : ℚ))).sum = 12 ∧
    (compute_stats sd9).seasonal_factors.sum / 12 = 17/16 ∧
    (1 : ℚ)/1000 < |(17 : ℚ)/16 - 1| := by
  refine ⟨by simp [sd9], by norm_num [sd9], ?_, by
    have habs : |(17 : ℚ)/16 - 1| = 1/16 := by
      rw [show (17 : ℚ)/16 - 1 = 1/16 by norm_num]
      exact abs_of_pos (by norm_num)
    rw [habs]
    norm_num⟩
  norm_num [compute_stats, sd9,
    show List.range 12 = [0, 1, 2, 3, 4, 5, 6, 7, 8, 9, 10, 11] from rfl,
    show civilMonth 0 = 1 by decide, show civilMonth 1 = 1 by decide,
    show civilMonth 31 = 2 by decide, roundTo, pyRound, List.filter_cons,
    List.isEmpty_cons, cons_eq_nil_false]

/-! ### C5: dates of a generated series -/

/-- C5: the daily series produced by `generate_sku_data` has exactly one
record per calendar day: its dates are `start_day, start_day + 1, …,
start_day + num_days − 1` in order — contiguous, gap free and strictly
increasing from the start date to the end date inclusive. -/
theorem C5_dates (fo : FloatOracle) (p : Profile) (start_day : ℤ)
    (num_days : ℕ) (s : RState) (sd : SkuData) (s2 : RState)
    (hok : generate_sku_data fo start_day num_days p s = Except.ok (sd, s2)) :
    sd.daily_data.length = num_days ∧
    sd.daily_data.map (fun r => r.date) =
      (List.range num_days).map (fun (i : ℕ) => start_day + (i : ℤ)) := by
  obtain ⟨hinj, _⟩ := generate_sku_data_inv fo p start_day num_days s sd s2 hok
  obtain ⟨hlen, hdates, _, _⟩ := inject_anomalies_frame _ _ _ _ hinj
  constructor
  · rw [hlen, genLoop_length]
  · rw [hdates, genLoop_dates]

/-- Witness for C5 on a concrete 50-day run. -/
theorem C5_witness :
    (generate_sku_data fo0 0 50 pW s0).toOption.map
        (fun x => x.1.daily_data.map (fun r => r.date)) =
      some ((List.range 50).map (fun (i : ℕ) => (0 : ℤ) + (i : ℤ))) := by
  obtain ⟨sd, s2, hok, _, _⟩ :=
    generate_sku_data_props fo0 pW 0 50 s0 (by norm_num)
  have h := C5_dates fo0 pW 0 50 s0 sd s2 hok
  rw [hok]
  simp only [Except.toOption, Option.map_some']
  rw [h.2]

/-! ### C2: stock invariants -/

/-- C2 (amended): for every profile with nonnegative base demand and every
well-formed random source and float oracle, the records produced by the
daily loop of `generate_sku_data` satisfy the full stock chain invariant
(`stock_level = stock_before + qty_received − qty_sold ≥ 0`, so
`qty_sold ≤ stock_before + qty_received`, with a clamped day ending at
stock exactly 0 and a nonnegative clamped `qty_sold`); after anomaly
injection the emitted records still all have `stock_level ≥ 0` and
`qty_sold ≥ 0`, but an anomaly-amplified day may sell more than
`stock_before + qty_received` — see the counterexample. -/
theorem C2_stock_invariants (fo : FloatOracle) (p : Profile)
    (start_day : ℤ) (num_days : ℕ) (s : RState)
    (hu : ∀ k, 0 ≤ s.uf k) (hexp : ExpNonneg fo)
    (hbase : 0 ≤ p.base_daily_demand) :
    stockChain (p.base_daily_demand * 30)
      (genLoop fo p num_days start_day 0 (p.base_daily_demand * 30) s).1 ∧
    ∀ (sd : SkuData) (s2 : RState),
      generate_sku_data fo start_day num_days p s = Except.ok (sd, s2) →
      ∀ r ∈ sd.daily_data, 0 ≤ r.stock_level ∧ 0 ≤ r.qty_sold := by
  have hchain := genLoop_stockChain fo p hbase hexp num_days start_day 0
    (p.base_daily_demand * 30) s hu (by omega)
  refine ⟨hchain, fun sd s2 hok r hr => ?_⟩
  obtain ⟨hinj, _⟩ := generate_sku_data_inv fo p start_day num_days s sd s2 hok
  have hq : AllSoldNonneg
      (genLoop fo p num_days start_day 0 (p.base_daily_demand * 30) s).1 :=
    fun j rr h => (stockChain_nonneg _ _ hchain j rr h).1
  have hu2 : ∀ k, 0 ≤
      (genLoop fo p num_days start_day 0 (p.base_daily_demand * 30) s).2.uf k := by
    rw [genLoop_uf]
    exact hu
  obtain ⟨hlen, hrel⟩ := inject_anomalies_rel _ _ _ _ hu2 hq hinj
  obtain ⟨j, hj⟩ := List.mem_iff_getElem?.mp hr
  have hjlt : j < (genLoop fo p num_days start_day 0
      (p.base_daily_demand * 30) s).1.length := by
    have := (List.getElem?_eq_some_iff.mp hj).1
    omega
  obtain ⟨pre, hpre⟩ : ∃ pre,
      (genLoop fo p num_days start_day 0 (p.base_daily_demand * 30) s).1[j]? =
        some pre := ⟨_, List.getElem?_eq_getElem hjlt⟩
  have hR := hrel j pre r hpre hj
  have hpre_inv := stockChain_nonneg _ _ hchain j pre hpre
  exact ⟨hR.2.2.1 ▸ hpre_inv.2, le_trans hpre_inv.1 hR.2.2.2.1⟩

/-- Witness for C2: the chain invariant of a concrete 50-day run. -/
theorem C2_witness :
    stockChain (pW.base_daily_demand * 30)
      (genLoop fo0 pW 50 0 0 (pW.base_daily_demand * 30) s0).1 :=
  (C2_stock_invariants fo0 pW 0 50 s0
    (fun k => le_refl 0) (fun x => by norm_num [fo0]) (by norm_num [pW])).1

/-! ### C3: the injector frame -/

/-- C3 (amended): a successful anomaly injection preserves the number of
records and every record's date, `qty_received` and `stock_level`; at every
index `qty_sold` never decreases, and a record the injector modified
(anomaly flag newly set) whose original `qty_sold` was at least 1 gets a
strictly larger `qty_sold`.  A modified record that sold 0 units keeps
`qty_sold = 0` (`int(0·m) = 0`), so the strict increase of the claim as
stated fails there — see the counterexample. -/
theorem C3_injector_frame (daily : List DailyRecord) (s : RState)
    (post : List DailyRecord) (s2 : RState)
    (hu : ∀ k, 0 ≤ s.uf k) (hq : AllSoldNonneg daily)
    (hok : inject_anomalies daily s = Except.ok (post, s2)) :
    post.length = daily.length ∧
    post.map (fun r => r.date) = daily.map (fun r => r.date) ∧
    post.map (fun r => r.qty_received) = daily.map (fun r => r.qty_received) ∧
    post.map (fun r => r.stock_level) = daily.map (fun r => r.stock_level) ∧
    ∀ (j : ℕ) (r r2 : DailyRecord), daily[j]? = some r → post[j]? = some r2 →
      r.qty_sold ≤ r2.qty_sold ∧
      (r.is_anomaly = false → r2.is_anomaly = true → 1 ≤ r.qty_sold →
        r.qty_sold < r2.qty_sold) := by
  obtain ⟨hlen, hrel⟩ := inject_anomalies_rel daily s post s2 hu hq hok
  obtain ⟨_, hd, hr, hs⟩ := inject_anomalies_frame daily s post s2 hok
  exact ⟨hlen, hd, hr, hs, fun j r r2 h1 h2 =>
    ⟨(hrel j r r2 h1 h2).2.2.2.1, (hrel j r r2 h1 h2).2.2.2.2.2⟩⟩

/-- A concrete series of 50 one-unit days. -/
def exW : List DailyRecord :=
  List.replicate 50
    { date := 0, qty_sold := 1, qty_received := 0, stock_level := 0,
      is_anomaly := false }

/-- A concrete series of 40 one-unit days (too short for injection). -/
def exW40 : List DailyRecord :=
  List.replicate 40
    { date := 0, qty_sold := 1, qty_received := 0, stock_level := 0,
      is_anomaly := false }

/-- Witness for C3 on a concrete injection into `exW`. -/
theorem C3_witness :
    (inject_anomalies exW s0).toOption.map
        (fun x => (x.1.length, x.1.map (fun r => r.qty_received))) =
      some (50, List.replicate 50 0) := by
  have hok := inject_anomalies_ok exW s0 (by norm_num [s0, exW])
  have h := C3_injector_frame exW s0 _ _ (fun k => le_refl 0)
    (fun j r hj => by
      have hm := List.getElem?_mem hj
      rw [exW, List.mem_replicate] at hm
      rw [hm.2]
      norm_num) hok
  rw [hok]
  simp only [Except.toOption, Option.map_some']
  rw [h.1, h.2.2.1]
  simp [exW]

/-- A record that sold nothing. -/
def rz : DailyRecord :=
  { date := 0, qty_sold := 0, qty_received := 0, stock_level := 0,
    is_anomaly := false }

/-- A concrete 43-day series of zero-sale days. -/
def ex43z : List DailyRecord := List.replicate 43 rz

/-- C3 counterexample to the claim as stated: injecting into a series whose
day 30 sold 0 units modifies record 30 (its anomaly flag flips from false
to true) but leaves its `qty_sold` at 0 — not strictly greater than
before. -/
theorem C3_counterexample :
    ex43z[30]?.map (fun r => (r.is_anomaly, r.qty_sold)) = some (false, 0) ∧
    (inject_anomalies ex43z s0).toOption.map
        (fun x => x.1[30]?.map (fun r => (r.is_anomaly, r.qty_sold))) =
      some (some (true, 0)) := by
  refine ⟨by decide, ?_⟩
  have hok := inject_anomalies_ok ex43z s0 (by norm_num [s0, ex43z])
  rw [hok]
  simp only [Except.toOption, Option.map_some']
  have hidx : (sampleAux (8 + s0.nf s0.pos % 8)
      (List.range' 30 (ex43z.length - 35)) (bump s0)).1 =
      [30, 31, 32, 33, 34, 35, 36, 37] := by decide
  rw [hidx]
  simp only [applySpikes, draw_uniform, draw_randint]
  rw [applySpike_getElem_lt, applySpike_getElem_lt, applySpike_getElem_lt,
    applySpike_getElem_lt, applySpike_getElem_lt, applySpike_getElem_lt,
    applySpike_getElem_lt, applySpike_getElem_pos]
  · simp [ex43z, rz, spike, pyInt, show ((List.replicate 43 rz)[30]?) = some rz by decide]
  all_goals first
    | omega
    | simp [ex43z]

/-- The records the concrete 43-day run produces: no restock ever fires
(stock stays above the threshold 8.4), days other than 30 sell nothing
(large negative Gaussian noise), and day 30 sells 20 of the 30 in stock. -/
def genRecs : List DailyRecord :=
  [
    ⟨0, 0, 0, 30, false⟩,
    ⟨1, 0, 0, 30, false⟩,
    ⟨2, 0, 0, 30, false⟩,
    ⟨3, 0, 0, 30, false⟩,
    ⟨4, 0, 0, 30, false⟩,
    ⟨5, 0, 0, 30, false⟩,
    ⟨6, 0, 0, 30, false⟩,
    ⟨7, 0, 0, 30, false⟩,
    ⟨8, 0, 0, 30, false⟩,
    ⟨9, 0, 0, 30, false⟩,
    ⟨10, 0, 0, 30, false⟩,
    ⟨11, 0, 0, 30, false⟩,
    ⟨12, 0, 0, 30, false⟩,
    ⟨13, 0, 0, 30, false⟩,
    ⟨14, 0, 0, 30, false⟩,
    ⟨15, 0, 0, 30, false⟩,
    ⟨16, 0, 0, 30, false⟩,
    ⟨17, 0, 0, 30, false⟩,
    ⟨18, 0, 0, 30, false⟩,
    ⟨19, 0, 0, 30, false⟩,
    ⟨20, 0, 0, 30, false⟩,
    ⟨21, 0, 0, 30, false⟩,
    ⟨22, 0, 0, 30, false⟩,
    ⟨23, 0, 0, 30, false⟩,
    ⟨24, 0, 0, 30, false⟩,
    ⟨25, 0, 0, 30, false⟩,
    ⟨26, 0, 0, 30, false⟩,
    ⟨27, 0, 0, 30, false⟩,
    ⟨28, 0, 0, 30, false⟩,
    ⟨29, 0, 0, 30, false⟩,
    ⟨30, 20, 0, 10, false⟩,
    ⟨31, 0, 0, 10, false⟩,
    ⟨32, 0, 0, 10, false⟩,
    ⟨33, 0, 0, 10, false⟩,
    ⟨34, 0, 0, 10, false⟩,
    ⟨35, 0, 0, 10, false⟩,
    ⟨36, 0, 0, 10, false⟩,
    ⟨37, 0, 0, 10, false⟩,
    ⟨38, 0, 0, 10, false⟩,
    ⟨39, 0, 0, 10, false⟩,
    ⟨40, 0, 0, 10, false⟩,
    ⟨41, 0, 0, 10, false⟩,
    ⟨42, 0, 0, 10, false⟩
  ]

/-- The random-source state after the concrete 43-day loop: two draws per
day, cursor at 86, streams untouched. -/
def sGen : RState := { uf := s0.uf, gf := s0.gf, nf := s0.nf, pos := 86 }

set_option maxRecDepth 40000 in
set_option maxHeartbeats 2000000 in
/-- Evaluation of the concrete 43-day daily loop. -/
theorem genLoop_eval :
    genLoop fo0 pW 43 0 0 (pW.base_daily_demand * 30) s0 = (genRecs, sGen) := by
  norm_num [genLoop, genRecs, sGen, weekday_factor, draw_random, draw_gauss,
    draw_uniform, bump, seasonal_factor_val, trend_factor_val, weekdayOf,
    fo0, s0, pW, pyRound, pyInt]

/-- C2 counterexample to the claim as stated: in a concrete 43-day run,
day 29 ends with 30 in stock, and day 30 — amplified by the anomaly
injector — is emitted with `qty_received = 0` and `qty_sold = 50`, selling
more than the available `stock_before + qty_received = 30`. -/
theorem C2_counterexample :
    (generate_sku_data fo0 0 43 pW s0).toOption.map
        (fun x => (x.1.daily_data[29]?).map (fun r => r.stock_level)) =
      some (some 30) ∧
    (generate_sku_data fo0 0 43 pW s0).toOption.map
        (fun x => (x.1.daily_data[30]?).map
          (fun r => (r.qty_received, r.qty_sold))) =
      some (some (0, 50)) ∧
    ¬ ((50 : ℤ) ≤ 30 + 0) := by
  have hcond : 8 + sGen.nf sGen.pos % 8 ≤ genRecs.length - 35 := by decide
  have hidx : (sampleAux (8 + sGen.nf sGen.pos % 8)
      (List.range' 30 (genRecs.length - 35)) (bump sGen)).1 =
      [30, 31, 32, 33, 34, 35, 36, 37] := by decide
  simp only [generate_sku_data, genLoop_eval]
  rw [inject_anomalies_ok genRecs sGen hcond]
  simp only [Except.toOption, Option.map_some']
  rw [hidx]
  simp only [applySpikes, draw_uniform, draw_randint]
  refine ⟨?_, ?_, by norm_num⟩
  · rw [applySpike_getElem_lt, applySpike_getElem_lt, applySpike_getElem_lt,
      applySpike_getElem_lt, applySpike_getElem_lt, applySpike_getElem_lt,
      applySpike_getElem_lt, applySpike_getElem_lt]
    · simp [show (genRecs[29]?) = some ⟨29, 0, 0, 30, false⟩ by decide]
    all_goals omega
  · rw [applySpike_getElem_lt, applySpike_getElem_lt, applySpike_getElem_lt,
      applySpike_getElem_lt, applySpike_getElem_lt, applySpike_getElem_lt,
      applySpike_getElem_lt, applySpike_getElem_pos]
    · rw [show (genRecs[30]?) = some ⟨30, 20, 0, 10, false⟩ by decide]
      simp only [Option.map_some']
      simp [spike, pyInt, sampleAux_uf, bump, sGen, s0]
      norm_num
    · omega
    · omega
    · omega
    · omega
    · omega
    · omega
    · omega
    · decide
    · omega

/-! ### C7: no configuration validation -/

/-- An invalid profile: non-positive lead time, non-positive base demand
and an out-of-range peak month all at once. -/
def pBad : Profile :=
  { sku := "BAD-1", name := "Bad", category := "Misc", location := "Shelf",
    unit_cost := 1, sell_price := 2, lead_time_days := 0,
    base_daily_demand := 0, trend := 0, seasonal_peak_month := 13,
    seasonal_amplitude := 0 }

/-- C7 (amended): `main` performs no profile validation whatsoever: for
every profile list — including profiles with non-positive lead time,
non-positive base demand or out-of-range peak month — and every random
source, the run completes and produces one dataset entry per profile
(whenever the date range spans at least 50 days, so anomaly sampling
always fits).  No configuration error is ever raised. -/
theorem C7_no_validation (fo : FloatOracle) (start_day : ℤ) (num_days : ℕ)
    (ps : List Profile) (s : RState) (h : 50 ≤ num_days) :
    ∃ d, main fo start_day num_days ps s = Except.ok d ∧
      d.length = ps.length :=
  assembleLoop_total fo start_day num_days h ps s

/-- Witness for C7 on a concrete run. -/
theorem C7_witness :
    (main fo0 0 50 [pW] s0).toOption.map List.length = some 1 := by
  obtain ⟨d, hok, hlen⟩ := C7_no_validation fo0 0 50 [pW] s0 (by norm_num)
  rw [hok]
  simp only [Except.toOption, Option.map_some']
  simp [hlen]

/-- C7 counterexample to the claim as stated: a run whose profile list
contains an invalid profile (`lead_time_days = 0`,
`base_daily_demand = 0`, `seasonal_peak_month = 13`) does not abort with a
configuration error — it completes and produces a dataset entry for that
profile. -/
theorem C7_counterexample :
    pBad.lead_time_days ≤ 0 ∧ pBad.base_daily_demand ≤ 0 ∧
    (pBad.seasonal_peak_month < 1 ∨ 12 < pBad.seasonal_peak_month) ∧
    (main fo0 0 50 [pBad] s0).toOption.map List.length = some 1 := by
  refine ⟨by norm_num [pBad], by norm_num [pBad], Or.inr (by norm_num [pBad]), ?_⟩
  obtain ⟨d, hok, hlen⟩ := assembleLoop_total fo0 0 50 (by norm_num) [pBad] s0
  rw [show main fo0 0 50 [pBad] s0 = assembleLoop fo0 0 50 [pBad] s0 from rfl, hok]
  simp only [Except.toOption, Option.map_some']
  simp [hlen]

/-! ### C8: clean failure of sampling and all-or-nothing assembly -/

/-- C8: when a series is too short for the drawn number of anomaly start
positions (the population `range(30, len − 5)` has fewer than
`n_anomalies` elements), injection fails with an error instead of choosing
positions; and the assembler is all-or-nothing: whenever `main` returns a
dataset at all, it contains exactly one entry per configured profile (an
error run returns no dataset). -/
theorem C8_sampling_failure :
    (∀ (daily : List DailyRecord) (s : RState),
        daily.length - 35 < 8 + s.nf s.pos % 8 →
        inject_anomalies daily s =
          Except.error "Sample larger than population or is negative") ∧
    (∀ (fo : FloatOracle) (start_day : ℤ) (num_days : ℕ)
        (ps : List Profile) (s : RState) (d : List (String × DatasetEntry)),
        main fo start_day num_days ps s = Except.ok d →
        d.length = ps.length) :=
  ⟨fun daily s h => inject_anomalies_err daily s h,
   fun fo start_day num_days ps s d h =>
    assembleLoop_ok_length fo start_day num_days ps s d h⟩

/-- Witness for C8: a concrete 40-record series (population 5 < 8) fails,
and a concrete successful run has one entry per profile. -/
theorem C8_witness :
    inject_anomalies exW40 s0 =
      Except.error "Sample larger than population or is negative" ∧
    ([] : List (String × DatasetEntry)).length = ([] : List Profile).length :=
  ⟨C8_sampling_failure.1 exW40 s0 (by norm_num [s0, exW40]),
   C8_sampling_failure.2 fo0 0 50 [] s0 [] rfl⟩

set_option maxRecDepth 4000 in
/-- C1 counterexample to the claim as stated: a contiguous daily series of
367 records (under 395) for which `compute_stats` returns a year-over-year
change of 100, not 0 — for lengths 367–394 the source clamps the
prior-year window to start at index 0 and still compares against it. -/
theorem C1_counterexample :
    sd367.daily_data.length < 395 ∧
    sd367.daily_data.map (fun r => r.date) =
      (List.range 367).map (fun (i : ℕ) => (i : ℤ)) ∧
    (compute_stats sd367).yoy_change_pct = 100 ∧ (100 : ℚ) ≠ 0 := by
  have hlen : sd367.daily_data.length = 367 := by simp [sd367, cex367]
  refine ⟨by omega, ?_, ?_, by norm_num⟩
  · simp only [sd367, cex367, List.map_cons, List.map_map]
    rw [show List.range 367 = 0 :: (List.range 366).map Nat.succ from
      List.range_succ_eq_map 366]
    simp only [List.map_cons, List.map_map, Nat.cast_zero]
    congr 1
  · have hdrop : sd367.daily_data.drop 337 =
        ((List.range 366).drop 336).map (fun (i : ℕ) =>
          ({ date := (i : ℤ) + 1, qty_sold := 2, qty_received := 0,
             stock_level := 0, is_anomaly := false } : DailyRecord)) := by
      simp only [sd367, cex367]
      rw [show (337 : ℕ) = 336 + 1 from rfl, List.drop_succ_cons, ← List.map_drop]
    have hsold : (sd367.daily_data.drop 337).map (fun d => (d.qty_sold : ℚ)) =
        List.replicate 30 2 := by
      rw [hdrop, List.map_map]
      have h1 : ((List.range 366).drop 336).map
          ((fun d => ((d : DailyRecord).qty_sold : ℚ)) ∘ (fun (i : ℕ) =>
            ({ date := (i : ℤ) + 1, qty_sold := 2, qty_received := 0,
               stock_level := 0, is_anomaly := false } : DailyRecord))) =
          ((List.range 366).drop 336).map (fun (_ : ℕ) => (2 : ℚ)) :=
        List.map_congr_left (fun a ha => by simp [Function.comp])
      rw [h1, List.map_const']
      simp
    have htake : sd367.daily_data.take 1 =
        [{ date := 0, qty_sold := 1, qty_received := 0, stock_level := 0,
           is_anomaly := false }] := rfl
    simp only [compute_stats, hlen]
    norm_num [max_def, hsold, htake, List.sum_replicate, isEmpty_replicate,
      List.isEmpty_cons, nsmul_eq_mul, roundTo, pyRound]

end StockShiftAI
